import Mathlib

/-!
Shallow embedding of the toefl_scouts ingestion-and-deduplication engine
(reddit_scraper.py, database.py, discord_notifier.py, main.py) and proofs of
the specification claims about it.

Conventions of the embedding:
 - machine integers and epoch timestamps are Lean `Int` (seconds);
 - wall-clock instants used by the rate limiter are `ℚ` (idealised real time);
 - Python dicts used as id-keyed maps are association lists in insertion
   order, with in-place value replacement, mirroring CPython dict semantics;
 - fallible I/O (HTTP) is modelled by an explicit outcome type fed to the
   translated function.
-/

namespace ToeflScouts

/-! ## Database (src/database.py)

The SQLite table `pushed_posts (post_id TEXT PRIMARY KEY, pushed_at TIMESTAMP)`
is modelled as a list of records; `pushed_at` is an integer timestamp in
seconds (datetime values compare chronologically, as the ISO strings do in
SQLite). -/

/-- One row of the `pushed_posts` table. -/
structure DbRecord where
  post_id : String
  pushed_at : Int
deriving DecidableEq

/-- A post dictionary as produced by `RedditScraper._parse_posts`:
fields `id, title, selftext, author, subreddit, score, upvote_ratio,
num_comments, created_utc, url, is_self, link_flair_text`. `created_utc`
is the epoch-seconds value (the Python `datetime` preserves it), and
`upvote_ratio` is kept as an exact rational. -/
structure Post where
  id : String
  title : String
  selftext : String
  author : String
  subreddit : String
  score : Int
  upvote_ratio : ℚ
  num_comments : Int
  created_utc : Int
  url : String
  is_self : Bool
  link_flair_text : String
deriving DecidableEq

/-- `Database.get_pushed_ids`: `SELECT post_id FROM pushed_posts` (the Python
set is used only for membership tests, so the list of ids is an adequate
model). -/
def get_pushed_ids (store : List DbRecord) : List String :=
  store.map (fun r => r.post_id)

/-- `Database.filter_new_posts`: `[p for p in posts if p['id'] not in pushed_ids]`. -/
def filter_new_posts (store : List DbRecord) (posts : List Post) : List Post :=
  posts.filter (fun p => p.id ∉ get_pushed_ids store)

/-- `INSERT OR REPLACE INTO pushed_posts (post_id, pushed_at) VALUES (?, ?)`
for one id: replace the row with this primary key if present, else insert. -/
def upsertRecord (store : List DbRecord) (pid : String) (t : Int) : List DbRecord :=
  if store.any (fun r => r.post_id = pid) then
    store.map (fun r => if r.post_id = pid then { post_id := pid, pushed_at := t } else r)
  else
    store ++ [{ post_id := pid, pushed_at := t }]

/-- `Database.mark_batch_as_pushed`: executemany of the upsert over
`[(post['id'], now) for post in posts]` with a single `now`. -/
def mark_batch_as_pushed (store : List DbRecord) (posts : List Post) (now : Int) :
    List DbRecord :=
  posts.foldl (fun s p => upsertRecord s p.id now) store

/-- Seconds in a day: `timedelta(days=days)` contributes `days * 86400` seconds. -/
def secondsPerDay : Int := 86400

/-- `Database.cleanup_old_records`: `cutoff = now - timedelta(days=days)`;
`DELETE FROM pushed_posts WHERE pushed_at < cutoff`; returns the surviving
table together with `cursor.rowcount` (the number of deleted rows). -/
def cleanup_old_records (store : List DbRecord) (now : Int) (days : Int) :
    List DbRecord × Nat :=
  let cutoff := now - days * secondsPerDay
  (store.filter (fun r => ¬ r.pushed_at < cutoff),
   store.countP (fun r => decide (r.pushed_at < cutoff)))

/-! ## Post fetching (src/reddit_scraper.py)

A listing payload is what `_parse_posts` inspects: either a degenerate
document (falsy response, e.g. the `{}` returned by `_get_json` on failure,
or a dict without a `data` key — both make the parser return `[]`), or the
`data['data'].get('children', [])` list. Each child carries its `kind` tag
and a data dict; the record fields hold the values after `.get` defaults
have been applied (`''` for text, `0` for numbers, `'[deleted]'` for a
missing author, `True` for `is_self`). -/

/-- Post-level `.get`-defaulted fields of one `t3` child. -/
structure PostFields where
  id : String := ""
  title : String := ""
  selftext : String := ""
  author : String := "[deleted]"
  subreddit : String := ""
  score : Int := 0
  upvote_ratio : ℚ := 0
  num_comments : Int := 0
  created_utc : Int := 0
  permalink : String := ""
  is_self : Bool := true
  link_flair_text : String := ""
deriving DecidableEq

/-- One element of `data['data']['children']` in a post listing. -/
structure PostChild where
  kind : String
  fields : PostFields
deriving DecidableEq

/-- A post-listing JSON document as seen by `_parse_posts`. -/
inductive PostListing where
  | invalid : PostListing
  | withChildren : List PostChild → PostListing
deriving DecidableEq

/-- `RedditScraper._parse_posts`: `t3` children become post dictionaries in
payload order, any other kind is skipped. -/
def parse_posts : PostListing → List Post
  | PostListing.invalid => []
  | PostListing.withChildren children =>
    children.filterMap (fun item =>
      if item.kind = "t3" then
        some { id := item.fields.id
               title := item.fields.title
               selftext := item.fields.selftext
               author := item.fields.author
               subreddit := item.fields.subreddit
               score := item.fields.score
               upvote_ratio := item.fields.upvote_ratio
               num_comments := item.fields.num_comments
               created_utc := item.fields.created_utc
               url := "https://reddit.com" ++ item.fields.permalink
               is_self := item.fields.is_self
               link_flair_text := item.fields.link_flair_text }
      else none)

/-- CPython dict assignment `all_posts[k] = v`: replace the value in place if
the key exists (keeping its position), else append a new entry. -/
def dictInsert (m : List (String × Post)) (k : String) (v : Post) :
    List (String × Post) :=
  if m.any (fun kv => kv.1 = k) then
    m.map (fun kv => if kv.1 = k then (k, v) else kv)
  else
    m ++ [(k, v)]

/-- The loop `for post in posts: all_posts[post['id']] = post`. -/
def insertAll (m : List (String × Post)) (ps : List Post) : List (String × Post) :=
  ps.foldl (fun m p => dictInsert m p.id p) m

/-- `list(all_posts.values())`. -/
def dictValues (m : List (String × Post)) : List Post :=
  m.map Prod.snd

/-- The four fetch strategies, in the declared order of the `strategies`
list in `fetch_posts`. -/
inductive Strategy where
  | hot | rising | top | new
deriving DecidableEq

/-- The declared strategy order: hot, rising, top, new. -/
def strategyOrder : List Strategy := [Strategy.hot, Strategy.rising, Strategy.top, Strategy.new]

/-- `RedditScraper.fetch_posts`: one shared `all_posts` dict, filled subreddit
by subreddit and strategy by strategy with `all_posts[post['id']] = post`,
then returned as `list(all_posts.values())`. The network is abstracted as a
function giving the parsed-JSON payload of each (subreddit, strategy)
endpoint; a failed fetch is `PostListing.invalid` (the `{}` from
`_get_json`), which parses to no posts. -/
def fetch_posts (payload : String → Strategy → PostListing) (subreddits : List String) :
    List Post :=
  dictValues
    (subreddits.foldl
      (fun m sub =>
        strategyOrder.foldl
          (fun m strat => insertAll m (parse_posts (payload sub strat)))
          m)
      [])

/-- The concatenation, in fetch order (subreddits outer, strategies inner),
of all parsed posts: exactly the sequence of dict writes `fetch_posts`
performs. -/
def mergedItems (payload : String → Strategy → PostListing) (subreddits : List String) :
    List Post :=
  subreddits.foldl
    (fun acc sub =>
      strategyOrder.foldl (fun acc strat => acc ++ parse_posts (payload sub strat)) acc)
    []

/-! ## Comment-tree flattening (src/reddit_scraper.py, `_parse_comments`)

The comment payload is mutually recursive: a listing document holds children,
each child holds a `replies` field, which is either a non-dict sentinel
(`''` default when absent, or any string such as a "load more" marker), an
empty dict `{}` (a dict, but falsy, so `if replies and isinstance(replies,
dict)` still refuses to recurse), or a nested listing document. Comment
fields hold the `.get`-defaulted values. -/

/-- Comment-level `.get`-defaulted fields of one `t1` child. -/
structure CommentFields where
  id : String := ""
  body : String := ""
  author : String := "[deleted]"
  score : Int := 0
  created_utc : Int := 0
  parent_id : String := ""
  permalink : String := ""
  is_submitter : Bool := false
deriving DecidableEq

mutual

/-- A comment-listing JSON document as seen by `_parse_comments`:
degenerate (falsy or without a `data` key, parsed to `[]`) or a children
list. -/
inductive CommentListing where
  | invalid : CommentListing
  | withChildren : List CommentChild → CommentListing

/-- One element of `data['data']['children']` in a comment listing. -/
inductive CommentChild where
  | mk : String → CommentFields → RepliesField → CommentChild

/-- The `replies` value of a comment: a string sentinel (also covering the
`.get` default `''` when the field is absent), the falsy empty dict, or a
nested listing. -/
inductive RepliesField where
  | sentinel : String → RepliesField
  | emptyDict : RepliesField
  | nested : CommentListing → RepliesField

end

/-- The `kind` tag of a comment child. -/
def CommentChild.kind : CommentChild → String
  | CommentChild.mk k _ _ => k

/-- The data fields of a comment child. -/
def CommentChild.fields : CommentChild → CommentFields
  | CommentChild.mk _ f _ => f

/-- The `replies` value of a comment child. -/
def CommentChild.replies : CommentChild → RepliesField
  | CommentChild.mk _ _ r => r

/-- The parts of the parent post dictionary that `_parse_comments` reads:
`post['id']`, `post['title']`, `post['subreddit']`. -/
structure PostCtx where
  id : String
  title : String
  subreddit : String
deriving DecidableEq

/-- A flattened comment record as appended by `_parse_comments`. -/
structure Comment where
  id : String
  body : String
  author : String
  score : Int
  created_utc : Int
  parent_id : String
  post_id : String
  post_title : String
  subreddit : String
  url : String
  is_submitter : Bool
  depth : Nat
deriving DecidableEq

/-- The record literal appended for one accepted comment child. -/
def mkComment (f : CommentFields) (post : PostCtx) (depth : Nat) : Comment :=
  { id := f.id
    body := f.body
    author := f.author
    score := f.score
    created_utc := f.created_utc
    parent_id := f.parent_id
    post_id := post.id
    post_title := post.title
    subreddit := post.subreddit
    url := "https://reddit.com" ++ f.permalink
    is_submitter := f.is_submitter
    depth := depth }

/-- The body filter of `_parse_comments`: `body in ['[deleted]', '[removed]', '']`. -/
def badBody (body : String) : Prop :=
  body = "[deleted]" ∨ body = "[removed]" ∨ body = ""

instance (body : String) : Decidable (badBody body) := by
  unfold badBody; infer_instance

mutual

/-- `RedditScraper._parse_comments`: returns `[]` on a degenerate document,
otherwise walks the children list. -/
def parse_comments (data : CommentListing) (post : PostCtx) (minScore : Int)
    (depth : Nat) : List Comment :=
  match data with
  | CommentListing.invalid => []
  | CommentListing.withChildren children => parseChildren children post minScore depth

/-- The `for item in data['data'].get('children', [])` loop of
`_parse_comments`: a non-`t1` kind, a score below `min_score`, or a
deleted/empty body each hit `continue` (skipping the recursion into that
child's replies); an accepted child is appended and then its replies are
recursed into at `depth + 1` when `replies` is a truthy dict. -/
def parseChildren (children : List CommentChild) (post : PostCtx) (minScore : Int)
    (depth : Nat) : List Comment :=
  match children with
  | [] => []
  | CommentChild.mk kind f reps :: rest =>
    if kind ≠ "t1" then parseChildren rest post minScore depth
    else if f.score < minScore then parseChildren rest post minScore depth
    else if badBody f.body then parseChildren rest post minScore depth
    else
      mkComment f post depth ::
        ((match reps with
          | RepliesField.nested t => parse_comments t post minScore (depth + 1)
          | RepliesField.sentinel _ => []
          | RepliesField.emptyDict => []) ++
         parseChildren rest post minScore depth)

end

/-! ## Rate limiting (src/reddit_scraper.py, `_rate_limit` / `_get_json`)

Wall-clock instants are rationals. `_rate_limit` reads the clock (`now`),
sleeps `REQUEST_DELAY - (now - last_request_time)` if that is positive, and
then stores the post-sleep clock reading into `last_request_time` — i.e. the
throttling timestamp is taken just before `session.get` is issued, at the
START of the request, not at its completion. -/

/-- `REQUEST_DELAY = 1.0` seconds. -/
def REQUEST_DELAY : ℚ := 1

/-- The scraper state read and written by `_rate_limit`
(`self.last_request_time`, initialised to `0` in `__init__`). -/
structure ScraperState where
  last_request_time : ℚ
deriving DecidableEq

/-- `RedditScraper._rate_limit`, entered at clock time `now`: returns the
time at which it finishes sleeping (the moment `session.get` is then issued)
together with the updated state, whose `last_request_time` is that same
post-sleep instant. -/
def rate_limit (st : ScraperState) (now : ℚ) : ℚ × ScraperState :=
  let elapsed := now - st.last_request_time
  let start := if elapsed < REQUEST_DELAY then now + (REQUEST_DELAY - elapsed) else now
  (start, { last_request_time := start })

/-- One `_get_json` invocation, timing-wise: `call` is the clock time at
which `_rate_limit` reads the clock, `dur` the duration of the HTTP request
itself. -/
structure Request where
  call : ℚ
  dur : ℚ
deriving DecidableEq

/-- The observable timing of one request: when `session.get` was issued and
when it completed. -/
structure ReqTiming where
  start : ℚ
  finish : ℚ
deriving DecidableEq

/-- The timing trace of a sequence of `_get_json` calls against one scraper
instance: each call runs `_rate_limit` (advancing the shared
`last_request_time`) and then occupies `dur` seconds. -/
def runRequests (st : ScraperState) : List Request → List ReqTiming
  | [] => []
  | r :: rest =>
    let rl := rate_limit st r.call
    { start := rl.1, finish := rl.1 + r.dur } :: runRequests rl.2 rest

/-! ## Fetch error boundary (src/reddit_scraper.py, `_get_json`)

`_get_json` wraps `session.get(url, timeout=10)`, `response.raise_for_status()`
and `response.json()` in `try ... except Exception: return {}`. The possible
outcomes of the wrapped block are modelled explicitly: the GET itself raising
(connection error, timeout, too many redirects, ...), or a response with an
HTTP status and a body that either parses to a JSON document or does not.
Per the requests library, `raise_for_status` raises exactly for statuses in
400..599; `.json()` raises on an unparseable body. -/

/-- The outcome of the network interaction inside `_get_json`, for a payload
type `α` (the parsed JSON document). -/
inductive HttpEvent (α : Type) where
  | exn : HttpEvent α
  | response : Nat → Option α → HttpEvent α
deriving DecidableEq

/-- `RedditScraper._get_json`: any raise inside the `try` block is caught by
`except Exception` and turned into the empty document `emptyDoc` (the `{}`
literal); otherwise the parsed body is returned as-is. Note that
`raise_for_status` raises only for statuses 400..599, so a non-2xx status
outside that range (e.g. a 3xx) with a parseable body is returned, not
emptied. -/
def get_json {α : Type} (emptyDoc : α) : HttpEvent α → α
  | HttpEvent.exn => emptyDoc
  | HttpEvent.response status body =>
    if 400 ≤ status ∧ status < 600 then emptyDoc
    else
      match body with
      | some doc => doc
      | none => emptyDoc

/-! ## Notification phase (main.py PHASE 4, discord_notifier.py)

`DiscordNotifier._send_message` posts each chunk of the report and catches
`requests.exceptions.RequestException` per chunk, only logging it; it returns
nothing, so no delivery failure ever propagates to `main`. `main` then calls
`db.mark_batch_as_pushed(top_posts)` unconditionally whenever
`top_posts or top_comments` was truthy. The rendering of the report
(`_build_report_message` / `_split_message`) only shapes the chunk strings
and is irrelevant to what gets marked, so the chunk list is a parameter. -/

/-- Outcome of `requests.post(webhook_url, json=payload, timeout=10)` for one
chunk. -/
inductive ChunkOutcome where
  | delivered : ChunkOutcome
  | requestError : ChunkOutcome
deriving DecidableEq

/-- `DiscordNotifier._send_message`: iterates the chunks; a raise is caught
and logged, the loop continues. The returned list of successfully delivered
chunks is the observable effect on the webhook (the Python function returns
`None` and exposes no failure signal to its caller). -/
def send_message (net : String → ChunkOutcome) (chunks : List String) : List String :=
  chunks.filter (fun c => net c = ChunkOutcome.delivered)

/-- PHASE 4 of `main`: `if top_posts or top_comments:` send the report, then
`db.mark_batch_as_pushed(top_posts)`. Returns the dedup store after the
phase together with the chunks that were actually delivered. -/
def run_phase4 (store : List DbRecord) (top_posts : List Post)
    (top_comments : List Comment) (chunks : List String)
    (net : String → ChunkOutcome) (now : Int) : List DbRecord × List String :=
  if top_posts.isEmpty ∧ top_comments.isEmpty then (store, [])
  else
    let delivered := send_message net chunks
    (mark_batch_as_pushed store top_posts now, delivered)

/-! ## Invariants of the merge dict and concrete example inputs -/

/-- Every value stored in the merge dict sits under its own id as key (true
by construction: the only writes are `all_posts[post['id']] = post`). -/
def Coherent (m : List (String × Post)) : Prop :=
  ∀ kv ∈ m, kv.2.id = kv.1

/-- The keys of the merge dict are pairwise distinct (a dict invariant). -/
def KeysNodup (m : List (String × Post)) : Prop :=
  (m.map Prod.fst).Nodup

/-- Parent-post context used by the concrete comment-tree examples. -/
def ctx0 : PostCtx :=
  { id := "post0", title := "Some post", subreddit := "TOEFL" }

/-- Depth-2 comment: qualifies on its own (score 10, non-empty body). -/
def grandchildNode : CommentChild :=
  CommentChild.mk "t1" { id := "c2", body := "deep reply", score := 10 }
    (RepliesField.sentinel "")

/-- Depth-1 comment: fails the score filter (score 1 below threshold 3), its
reply subtree holds the qualifying grandchild. -/
def middleNode : CommentChild :=
  CommentChild.mk "t1" { id := "c1", body := "mid reply", score := 1 }
    (RepliesField.nested (CommentListing.withChildren [grandchildNode]))

/-- Depth-0 comment: qualifies; its reply subtree holds the failing middle
node. -/
def topNode : CommentChild :=
  CommentChild.mk "t1" { id := "c0", body := "top reply", score := 10 }
    (RepliesField.nested (CommentListing.withChildren [middleNode]))

/-- Synthetic 3-level reply tree: top qualifies, middle fails the score
filter, grandchild qualifies. -/
def middleFailTree : CommentListing :=
  CommentListing.withChildren [topNode]

/-- Post fields with id `x` in a given subreddit, for the cross-source
merge counterexample. -/
def postXFields (sub : String) (title : String) : PostFields :=
  { id := "x", title := title, subreddit := sub, score := 5 }

/-- Two different subreddits each answer their `hot` endpoint with one post
of the SAME id `x` (differing titles and subreddit fields); every other
endpoint fails. -/
def crossSourcePayload : String → Strategy → PostListing := fun sub strat =>
  match strat with
  | Strategy.hot =>
    if sub = "suba" then PostListing.withChildren [⟨"t3", postXFields "suba" "from a"⟩]
    else if sub = "subb" then PostListing.withChildren [⟨"t3", postXFields "subb" "from b"⟩]
    else PostListing.invalid
  | _ => PostListing.invalid

/-- One subreddit whose `hot` and `rising` payloads both contain id `b` with
differing titles; `top` and `new` fail. -/
def twoStrategyPayload : String → Strategy → PostListing := fun _ strat =>
  match strat with
  | Strategy.hot => PostListing.withChildren [⟨"t3", { id := "b", title := "hot version" }⟩]
  | Strategy.rising => PostListing.withChildren [⟨"t3", { id := "b", title := "rising version" }⟩]
  | _ => PostListing.invalid

/-- A non-empty parsed document, for the fetch-boundary counterexample. -/
def demoListing : PostListing :=
  PostListing.withChildren [⟨"t3", { id := "x" }⟩]

/-- A concrete top post for the notification-phase analysis. -/
def demoPost : Post :=
  { id := "p1", title := "demo", selftext := "", author := "a", subreddit := "TOEFL",
    score := 10, upvote_ratio := 0, num_comments := 5, created_utc := 0,
    url := "https://reddit.com/demo", is_self := true, link_flair_text := "" }

/-- Dedup record marked at epoch 0 (far older than the TTL cutoff). -/
def oldRec : DbRecord := { post_id := "old", pushed_at := 0 }

/-- Dedup record marked 100000 s before the probe time (inside the TTL). -/
def freshRec : DbRecord := { post_id := "fresh", pushed_at := 900000 }

/-- Store holding one stale and one fresh record. -/
def demoStore : List DbRecord := [oldRec, freshRec]

/-! ## Theorems -/

theorem get_pushed_ids_upsert (store : List DbRecord) (pid : String) (t : Int)
    (x : String) :
    x ∈ get_pushed_ids (upsertRecord store pid t) ↔
      x ∈ get_pushed_ids store ∨ x = pid := by
  unfold upsertRecord
  by_cases h : store.any (fun r => r.post_id = pid) = true
  · rw [if_pos h]
    have hids :
        get_pushed_ids (store.map
          (fun r => if r.post_id = pid then { post_id := pid, pushed_at := t } else r)) =
        get_pushed_ids store := by
      unfold get_pushed_ids
      rw [List.map_map]
      apply List.map_congr_left
      intro r _
      by_cases hr : r.post_id = pid
      · simp [Function.comp, hr]
      · simp [Function.comp, hr]
    rw [hids]
    constructor
    · exact Or.inl
    · rintro (hx | rfl)
      · exact hx
      · simp only [List.any_eq_true, decide_eq_true_eq] at h
        obtain ⟨r, hr, hrp⟩ := h
        exact List.mem_map.mpr ⟨r, hr, hrp⟩
  · rw [if_neg h]
    unfold get_pushed_ids
    simp

theorem get_pushed_ids_mark_batch (store : List DbRecord) (ps : List Post)
    (now : Int) (x : String) :
    x ∈ get_pushed_ids (mark_batch_as_pushed store ps now) ↔
      x ∈ get_pushed_ids store ∨ x ∈ ps.map Post.id := by
  induction ps generalizing store with
  | nil => simp [mark_batch_as_pushed]
  | cons p rest ih =>
    show x ∈ get_pushed_ids (mark_batch_as_pushed (upsertRecord store p.id now) rest now) ↔ _
    rw [ih]
    rw [get_pushed_ids_upsert]
    simp only [List.map_cons, List.mem_cons]
    tauto

/-- C7: after the dedup filter runs once and the surviving posts are marked
as pushed, a second dedup-filter pass over the same merged item set returns
no items at all — in particular none of the previously delivered ids. -/
theorem dedup_filter_twice_empty (store : List DbRecord) (posts : List Post)
    (now : Int) :
    filter_new_posts (mark_batch_as_pushed store (filter_new_posts store posts) now)
      posts = [] := by
  unfold filter_new_posts
  rw [List.filter_eq_nil_iff]
  intro p hp
  simp only [decide_eq_true_eq, not_not]
  rw [get_pushed_ids_mark_batch]
  by_cases h : p.id ∈ get_pushed_ids store
  · exact Or.inl h
  · right
    rw [List.mem_map]
    refine ⟨p, ?_, rfl⟩
    rw [List.mem_filter]
    exact ⟨hp, by simp [h]⟩

/-- C10: the dedup filter returns exactly the subsequence of its input whose
ids are not in the store: it is a sublist of the input (so order is the
relative input order and nothing is added or reordered), and the
multiplicity of every post is either preserved (id not stored) or zero (id
stored). -/
theorem filter_new_posts_exact_subsequence (store : List DbRecord)
    (posts : List Post) :
    List.Sublist (filter_new_posts store posts) posts ∧
    ∀ p : Post, (filter_new_posts store posts).count p =
      if p.id ∈ get_pushed_ids store then 0 else posts.count p := by
  refine ⟨List.filter_sublist posts, fun p => ?_⟩
  by_cases h : p.id ∈ get_pushed_ids store
  · rw [if_pos h]
    apply List.count_eq_zero_of_not_mem
    intro hmem
    unfold filter_new_posts at hmem
    rw [List.mem_filter] at hmem
    simp [h] at hmem
  · rw [if_neg h]
    apply List.count_filter
    simp [h]

/-- C6: after `cleanup_old_records` with TTL `days` at time `now`, every
record whose timestamp is more than `days` days before `now` is gone, every
record marked less than `days` days before `now` survives, and the returned
count is exactly the number of removed records. -/
theorem cleanup_old_records_spec (store : List DbRecord) (now days : Int) :
    (∀ r ∈ store, r.pushed_at < now - days * secondsPerDay →
        r ∉ (cleanup_old_records store now days).1) ∧
    (∀ r ∈ store, now - days * secondsPerDay < r.pushed_at →
        r ∈ (cleanup_old_records store now days).1) ∧
    (cleanup_old_records store now days).2 =
      store.length - (cleanup_old_records store now days).1.length := by
  refine ⟨fun r _ hold hmem => ?_, fun r hr hfresh => ?_, ?_⟩
  · rw [cleanup_old_records, List.mem_filter] at hmem
    simp [hold] at hmem
  · rw [cleanup_old_records, List.mem_filter]
    refine ⟨hr, ?_⟩
    simp only [decide_not, Bool.not_eq_eq_eq_not, Bool.not_true, decide_eq_false_iff_not]
    omega
  · simp only [cleanup_old_records]
    rw [List.countP_eq_length_filter]
    have hcongr : store.filter
          (fun r => decide ¬(r.pushed_at < now - days * secondsPerDay)) =
        store.filter
          (fun r => !(decide (r.pushed_at < now - days * secondsPerDay))) := by
      apply List.filter_congr
      intro r _
      rw [decide_not]
    have hsplit := List.length_eq_length_filter_add
      (l := store) (fun r => decide (r.pushed_at < now - days * secondsPerDay))
    rw [hcongr]
    omega

/-- Witness for C6 at a concrete store: with `now = 1000000` and TTL 3 days,
the record marked at epoch 0 (more than 3 days old) is deleted, the record
marked 100000 s ago (less than 3 days) survives. -/
theorem cleanup_old_records_witness :
    oldRec ∉ (cleanup_old_records demoStore 1000000 3).1 ∧
    freshRec ∈ (cleanup_old_records demoStore 1000000 3).1 := by
  have h := cleanup_old_records_spec demoStore 1000000 3
  exact ⟨h.1 oldRec (by decide) (by decide), h.2.1 freshRec (by decide) (by decide)⟩

theorem parse_comments_withChildren (children : List CommentChild) (ctx : PostCtx)
    (minScore : Int) (depth : Nat) :
    parse_comments (CommentListing.withChildren children) ctx minScore depth =
      parseChildren children ctx minScore depth := by
  rw [parse_comments.eq_def]

theorem parseChildren_cons (kind : String) (f : CommentFields) (reps : RepliesField)
    (rest : List CommentChild) (ctx : PostCtx) (minScore : Int) (depth : Nat) :
    parseChildren (CommentChild.mk kind f reps :: rest) ctx minScore depth =
      if kind ≠ "t1" then parseChildren rest ctx minScore depth
      else if f.score < minScore then parseChildren rest ctx minScore depth
      else if badBody f.body then parseChildren rest ctx minScore depth
      else
        mkComment f ctx depth ::
          ((match reps with
            | RepliesField.nested t => parse_comments t ctx minScore (depth + 1)
            | RepliesField.sentinel _ => []
            | RepliesField.emptyDict => []) ++
           parseChildren rest ctx minScore depth) := by
  rw [parseChildren.eq_def]

theorem parseChildren_skip_failed (pre post : List CommentChild) (f : CommentFields)
    (reps : RepliesField) (ctx : PostCtx) (minScore : Int) (depth : Nat)
    (hfail : f.score < minScore ∨ badBody f.body) :
    parseChildren (pre ++ CommentChild.mk "t1" f reps :: post) ctx minScore depth =
      parseChildren (pre ++ post) ctx minScore depth := by
  induction pre with
  | nil =>
    simp only [List.nil_append]
    rw [parseChildren_cons]
    rcases hfail with hs | hb
    · simp [hs]
    · simp [hb]
  | cons c rest ih =>
    cases c with
    | mk kind f' reps' =>
      simp only [List.cons_append]
      rw [parseChildren_cons, parseChildren_cons, ih]

/-- C1 (amended): the inclusion filters are applied at each node, but a node
that fails the score filter or the body filter hits `continue`, which skips
the recursion into its replies as well — the whole subtree below a
filtered-out node is dropped, even where a descendant would independently
qualify. Removing such a `t1` node (with its entire subtree) from a
children list does not change the flattener's output. -/
theorem parse_comments_filtered_node_prunes_subtree (pre post : List CommentChild)
    (f : CommentFields) (reps : RepliesField) (ctx : PostCtx) (minScore : Int)
    (depth : Nat) (hfail : f.score < minScore ∨ badBody f.body) :
    parse_comments
        (CommentListing.withChildren (pre ++ CommentChild.mk "t1" f reps :: post))
        ctx minScore depth =
      parse_comments (CommentListing.withChildren (pre ++ post)) ctx minScore depth := by
  rw [parse_comments_withChildren, parse_comments_withChildren]
  exact parseChildren_skip_failed pre post f reps ctx minScore depth hfail

/-- Witness for the amended C1: dropping the concrete failing middle node
(score 1 < 3) together with its subtree leaves the flattener's output
unchanged. -/
theorem parse_comments_filtered_node_prunes_subtree_witness :
    parse_comments
        (CommentListing.withChildren
          ([] ++ CommentChild.mk "t1" { id := "c1", body := "mid reply", score := 1 }
              (RepliesField.nested (CommentListing.withChildren [grandchildNode])) :: []))
        ctx0 3 1 =
      parse_comments (CommentListing.withChildren ([] ++ [])) ctx0 3 1 :=
  parse_comments_filtered_node_prunes_subtree [] [] _ _ ctx0 3 1 (Or.inl (by decide))

/-- Counterexample to C1 as stated: in the synthetic 3-level tree whose
middle node fails the score filter (score 1 < threshold 3) while its child
qualifies (score 10), the flattened output holds only the top-level comment
— the qualifying grandchild is NOT emitted, and no record of depth 2
appears. -/
theorem middleFailTree_grandchild_missing :
    (parse_comments middleFailTree ctx0 3 0).map Comment.id = ["c0"] ∧
    (parse_comments middleFailTree ctx0 3 0).all (fun c => decide (c.depth ≠ 2)) = true := by
  constructor
  · decide
  · decide

/-- C9: a `t1` node that passes the filters but whose `replies` field is a
non-dict sentinel (the `''` default for a missing field, any other string,
or the falsy `{}`) is emitted as a plain leaf: its own record followed
directly by the records of its later siblings — no recursion below it, and
no error (the flattener is a total function, so the walk terminates on
every finite tree by construction). -/
theorem parse_comments_sentinel_is_leaf (f : CommentFields) (reps : RepliesField)
    (rest : List CommentChild) (ctx : PostCtx) (minScore : Int) (depth : Nat)
    (hscore : minScore ≤ f.score) (hbody : ¬ badBody f.body)
    (hleaf : ∀ t : CommentListing, reps ≠ RepliesField.nested t) :
    parse_comments (CommentListing.withChildren (CommentChild.mk "t1" f reps :: rest))
        ctx minScore depth =
      mkComment f ctx depth :: parseChildren rest ctx minScore depth := by
  have hs : ¬ f.score < minScore := not_lt.mpr hscore
  cases reps with
  | nested t => exact absurd rfl (hleaf t)
  | sentinel s =>
    rw [parse_comments_withChildren, parseChildren_cons]
    simp [hs, hbody]
  | emptyDict =>
    rw [parse_comments_withChildren, parseChildren_cons]
    simp [hs, hbody]

/-- Witness for C9: a concrete qualifying node with the `''` sentinel in
`replies` and no siblings flattens to exactly its own record. -/
theorem parse_comments_sentinel_is_leaf_witness :
    parse_comments
        (CommentListing.withChildren
          [CommentChild.mk "t1" { id := "w", body := "leaf body", score := 5 }
            (RepliesField.sentinel "")])
        ctx0 3 0 =
      mkComment { id := "w", body := "leaf body", score := 5 } ctx0 0 ::
        parseChildren [] ctx0 3 0 :=
  parse_comments_sentinel_is_leaf _ _ [] ctx0 3 0 (by decide) (by decide)
    (fun t h => by cases h)

/-- C2 at the failing input (code bug): one top post, a webhook that raises
`RequestException` on every chunk. `_send_message` swallows the error, so
`send_daily_report` returns normally and `main` still calls
`mark_batch_as_pushed`: nothing was delivered, yet the post id is recorded
as pushed — items are marked as seen that were never actually delivered. -/
theorem marked_despite_failed_delivery :
    (run_phase4 [] [demoPost] [] ["report chunk"]
        (fun _ => ChunkOutcome.requestError) 1234).2 = [] ∧
    get_pushed_ids (run_phase4 [] [demoPost] [] ["report chunk"]
        (fun _ => ChunkOutcome.requestError) 1234).1 = ["p1"] := by
  constructor
  · rfl
  · rfl

theorem runRequests_head_start (st : ScraperState) (reqs : List Request)
    (t : ReqTiming) (h : (runRequests st reqs).head? = some t) :
    st.last_request_time + REQUEST_DELAY ≤ t.start := by
  cases reqs with
  | nil => simp [runRequests] at h
  | cons r rest =>
    simp only [runRequests, List.head?_cons, Option.some.injEq] at h
    subst h
    show st.last_request_time + REQUEST_DELAY ≤ (rate_limit st r.call).1
    rw [rate_limit]
    by_cases hc : r.call - st.last_request_time < REQUEST_DELAY
    · rw [if_pos hc]
      dsimp only
      linarith
    · rw [if_neg hc]
      dsimp only
      linarith [not_lt.mp hc]

/-- C3 (amended): the 1.0-second floor holds between the STARTS of
consecutive requests, because `last_request_time` is written at the end of
`_rate_limit`, just before `session.get` is issued — not at the request's
completion. Every pair of adjacent entries in the timing trace has starts at
least `REQUEST_DELAY` apart. -/
theorem rate_limit_start_to_start_floor (st : ScraperState) (reqs : List Request) :
    List.Chain' (fun a b => a.start + REQUEST_DELAY ≤ b.start)
      (runRequests st reqs) := by
  induction reqs generalizing st with
  | nil => simp [runRequests]
  | cons r rest ih =>
    rw [runRequests, List.chain'_cons']
    refine ⟨fun b hb => ?_, ih _⟩
    have hhead : (runRequests (rate_limit st r.call).2 rest).head? = some b := hb
    have := runRequests_head_start (rate_limit st r.call).2 rest b hhead
    simpa [rate_limit] using this

/-- Counterexample to C3 as stated: with the scraper's initial state and two
back-to-back calls — the first entered at t = 100 taking 0.5 s (finishing at
100.5), the second entered right at that completion — the second request
starts at 101, only 0.5 s after the previous request completed, which is
below the 1.0 s floor. The floor is measured from the previous request's
start, not its completion. -/
theorem rate_limit_completion_gap_cex :
    (runRequests { last_request_time := 0 }
        [{ call := 100, dur := 1/2 }, { call := 201/2, dur := 0 }]).map
      (fun t => (t.start, t.finish)) = [((100 : ℚ), 201/2), (101, 101)] ∧
    (101 : ℚ) - 201/2 < REQUEST_DELAY := by
  constructor
  · norm_num [runRequests, rate_limit, REQUEST_DELAY]
  · norm_num [REQUEST_DELAY]

/-- C8 (amended): `_get_json` never raises — every outcome yields a
document — and on a transport error/timeout (the GET raising), a 4xx or 5xx
status (`raise_for_status` raises exactly for 400..599), or an unparseable
body (`.json()` raising), the result is the empty document `{}`. (A non-2xx
status outside 400..599, e.g. a 3xx, with a parseable body is returned
as-is; see the counterexample.) -/
theorem get_json_error_gives_empty {α : Type} (emptyDoc : α) (e : HttpEvent α)
    (herr : e = HttpEvent.exn ∨
      ∃ s b, e = HttpEvent.response s b ∧ ((400 ≤ s ∧ s < 600) ∨ b = none)) :
    get_json emptyDoc e = emptyDoc := by
  rcases herr with rfl | ⟨s, b, rfl, hcase⟩
  · rfl
  · rcases hcase with hs | rfl
    · simp [get_json, hs]
    · by_cases h4 : 400 ≤ s ∧ s < 600
      · simp [get_json, h4]
      · simp [get_json, h4]

/-- Witness for the amended C8: a 500 response with a parseable body still
yields the empty document. -/
theorem get_json_error_gives_empty_witness :
    get_json PostListing.invalid (HttpEvent.response 500 (some demoListing)) =
      PostListing.invalid :=
  get_json_error_gives_empty PostListing.invalid _
    (Or.inr ⟨500, some demoListing, rfl, Or.inl (by decide)⟩)

/-- Counterexample to C8 as stated: a response with the non-2xx status 301
whose body parses to a non-empty document is returned unchanged (not
emptied), because `raise_for_status` raises only for statuses 400..599. -/
theorem get_json_non_2xx_not_emptied :
    get_json PostListing.invalid (HttpEvent.response 301 (some demoListing)) =
      demoListing ∧
    demoListing ≠ PostListing.invalid ∧ ¬ (200 ≤ 301 ∧ 301 ≤ 299) := by
  refine ⟨rfl, by decide, by decide⟩

theorem map_replace_eq_self (m : List (String × Post)) (k : String) (v : Post)
    (h : ∀ kv ∈ m, kv.1 ≠ k) :
    m.map (fun kv => if kv.1 = k then (k, v) else kv) = m := by
  induction m with
  | nil => rfl
  | cons kv rest ih =>
    rw [List.map_cons]
    rw [if_neg (h kv (List.mem_cons_self kv rest))]
    rw [ih (fun x hx => h x (List.mem_cons_of_mem kv hx))]

theorem dictInsert_cons_ne (kv : String × Post) (m : List (String × Post))
    (k : String) (v : Post) (h : kv.1 ≠ k) :
    dictInsert (kv :: m) k v = kv :: dictInsert m k v := by
  unfold dictInsert
  by_cases hm : (m.any fun kv => decide (kv.1 = k)) = true
  · simp [List.any_cons, h, hm]
  · simp [List.any_cons, h, hm]

theorem values_filter_of_not_key (m : List (String × Post)) (k : String)
    (hcoh : Coherent m) (hk : ∀ kv ∈ m, kv.1 ≠ k) :
    (dictValues m).filter (fun p => p.id = k) = [] := by
  rw [List.filter_eq_nil_iff]
  intro p hp
  rw [dictValues, List.mem_map] at hp
  obtain ⟨kv, hkv, rfl⟩ := hp
  simp only [decide_eq_true_eq]
  rw [hcoh kv hkv]
  exact hk kv hkv

theorem dictInsert_coherent (m : List (String × Post)) (k : String) (v : Post)
    (hcoh : Coherent m) (hv : v.id = k) : Coherent (dictInsert m k v) := by
  unfold dictInsert
  by_cases hm : (m.any fun kv => decide (kv.1 = k)) = true
  · rw [if_pos hm]
    intro kv hkv
    rw [List.mem_map] at hkv
    obtain ⟨x, hx, rfl⟩ := hkv
    by_cases hxk : x.1 = k
    · simp [hxk, hv]
    · simp only [hxk, if_false]
      exact hcoh x hx
  · rw [if_neg hm]
    intro kv hkv
    rcases List.mem_append.mp hkv with hin | hin
    · exact hcoh kv hin
    · rw [List.mem_singleton] at hin
      subst hin
      exact hv

theorem dictInsert_keysNodup (m : List (String × Post)) (k : String) (v : Post)
    (hnd : KeysNodup m) : KeysNodup (dictInsert m k v) := by
  unfold dictInsert
  by_cases hm : (m.any fun kv => decide (kv.1 = k)) = true
  · rw [if_pos hm]
    have hkeys : (m.map fun kv => if kv.1 = k then (k, v) else kv).map Prod.fst =
        m.map Prod.fst := by
      rw [List.map_map]
      apply List.map_congr_left
      intro kv _
      by_cases hxk : kv.1 = k
      · simp [Function.comp, hxk]
      · simp [Function.comp, hxk]
    unfold KeysNodup at hnd ⊢
    rw [hkeys]
    exact hnd
  · rw [if_neg hm]
    unfold KeysNodup at hnd ⊢
    rw [List.map_append]
    have hnot : k ∉ m.map Prod.fst := by
      intro hkmem
      rw [List.mem_map] at hkmem
      obtain ⟨kv, hkv, hfst⟩ := hkmem
      apply hm
      rw [List.any_eq_true]
      exact ⟨kv, hkv, by simp [hfst]⟩
    rw [List.map_cons, List.map_nil, List.nodup_append]
    refine ⟨hnd, List.nodup_singleton k, ?_⟩
    intro x hx hxk
    simp only [List.mem_singleton] at hxk
    exact hnot (by simpa [hxk] using hx)

theorem dictValues_cons (kv : String × Post) (m : List (String × Post)) :
    dictValues (kv :: m) = kv.2 :: dictValues m := rfl

theorem dictInsert_values_filter (m : List (String × Post)) (k : String) (v : Post)
    (kq : String) (hcoh : Coherent m) (hnd : KeysNodup m) (hv : v.id = k) :
    (dictValues (dictInsert m k v)).filter (fun p => p.id = kq) =
      if kq = k then [v] else (dictValues m).filter (fun p => p.id = kq) := by
  induction m with
  | nil =>
    by_cases hkq : kq = k
    · subst hkq
      simp [dictInsert, dictValues, hv]
    · have hvne : ¬ (v.id = kq) := fun h => hkq ((hv.symm.trans h).symm)
      simp [dictInsert, dictValues, hvne, hkq]
  | cons kv rest ih =>
    have hkvid : kv.2.id = kv.1 := hcoh kv (List.mem_cons_self kv rest)
    have hcohr : Coherent rest := fun x hx => hcoh x (List.mem_cons_of_mem kv hx)
    have hndr : KeysNodup rest := (List.nodup_cons.mp hnd).2
    have hknot : kv.1 ∉ rest.map Prod.fst := (List.nodup_cons.mp hnd).1
    by_cases hk : kv.1 = k
    · have hrestne : ∀ x ∈ rest, x.1 ≠ k := by
        intro x hx hxk
        rw [← hk] at hxk
        exact hknot (hxk ▸ List.mem_map.mpr ⟨x, hx, rfl⟩)
      have hins : dictInsert (kv :: rest) k v = (k, v) :: rest := by
        unfold dictInsert
        rw [if_pos (by rw [List.any_cons]; simp [hk])]
        rw [List.map_cons, if_pos hk, map_replace_eq_self rest k v hrestne]
      rw [hins, dictValues_cons]
      by_cases hkq : kq = k
      · subst hkq
        rw [List.filter_cons_of_pos (by simp [hv])]
        rw [values_filter_of_not_key rest kq hcohr hrestne]
        simp
      · have hvne : ¬ (v.id = kq) := fun h => hkq ((hv.symm.trans h).symm)
        rw [List.filter_cons_of_neg (by simp [hvne])]
        rw [if_neg hkq, dictValues_cons]
        have hkvne : ¬ (kv.2.id = kq) := by
          rw [hkvid, hk]
          exact fun h => hkq h.symm
        rw [List.filter_cons_of_neg (by simp [hkvne])]
    · rw [dictInsert_cons_ne kv rest k v hk, dictValues_cons]
      have ihr := ih hcohr hndr
      by_cases hkq : kq = k
      · subst hkq
        have hkvne : ¬ (kv.2.id = kq) := by
          rw [hkvid]
          exact hk
        rw [List.filter_cons_of_neg (by simp [hkvne])]
        rw [ihr]
        simp
      · by_cases hkvq : kv.2.id = kq
        · rw [List.filter_cons_of_pos (by simp [hkvq])]
          rw [ihr, if_neg hkq, dictValues_cons]
          rw [List.filter_cons_of_pos (by simp [hkvq])]
          rw [if_neg hkq]
        · rw [List.filter_cons_of_neg (by simp [hkvq])]
          rw [ihr, if_neg hkq, dictValues_cons]
          rw [List.filter_cons_of_neg (by simp [hkvq])]
          rw [if_neg hkq]

theorem insertAll_coherent (items : List Post) (m : List (String × Post))
    (hcoh : Coherent m) : Coherent (insertAll m items) := by
  induction items generalizing m with
  | nil => exact hcoh
  | cons p rest ih => exact ih _ (dictInsert_coherent m p.id p hcoh rfl)

theorem insertAll_keysNodup (items : List Post) (m : List (String × Post))
    (hnd : KeysNodup m) : KeysNodup (insertAll m items) := by
  induction items generalizing m with
  | nil => exact hnd
  | cons p rest ih => exact ih _ (dictInsert_keysNodup m p.id p hnd)

theorem insertAll_values_filter (items : List Post) (m : List (String × Post))
    (k : String) (hcoh : Coherent m) (hnd : KeysNodup m) :
    (dictValues (insertAll m items)).filter (fun p => p.id = k) =
      match (items.filter (fun p => p.id = k)).getLast? with
      | some p => [p]
      | none => (dictValues m).filter (fun p => p.id = k) := by
  induction items generalizing m with
  | nil => simp [insertAll]
  | cons q rest ih =>
    have step := dictInsert_values_filter m q.id q k hcoh hnd rfl
    have ihq := ih (dictInsert m q.id q) (dictInsert_coherent m q.id q hcoh rfl)
      (dictInsert_keysNodup m q.id q hnd)
    show (dictValues (insertAll (dictInsert m q.id q) rest)).filter
        (fun p => p.id = k) = _
    rw [ihq]
    by_cases hqk : q.id = k
    · rw [List.filter_cons_of_pos (by simp [hqk])]
      rw [← List.singleton_append, List.getLast?_append]
      cases hlast : (rest.filter (fun p => p.id = k)).getLast? with
      | some p => simp [hlast]
      | none =>
        simp only [hlast, Option.none_or]
        rw [step, if_pos hqk.symm]
        simp
    · rw [List.filter_cons_of_neg (by simp [hqk])]
      cases hlast : (rest.filter (fun p => p.id = k)).getLast? with
      | some p => simp [hlast]
      | none =>
        simp only [hlast]
        rw [step, if_neg (fun h => hqk h.symm)]

theorem insertAll_append (m : List (String × Post)) (xs ys : List Post) :
    insertAll m (xs ++ ys) = insertAll (insertAll m xs) ys := by
  unfold insertAll
  exact List.foldl_append _ _ _ _

theorem foldl_append_acc {σ : Type} (g : σ → List Post) (l : List σ)
    (acc : List Post) :
    l.foldl (fun a st => a ++ g st) acc =
      acc ++ l.foldl (fun a st => a ++ g st) [] := by
  induction l generalizing acc with
  | nil => simp
  | cons st rest ih =>
    rw [List.foldl_cons, List.foldl_cons, ih (acc ++ g st), ih (([] : List Post) ++ g st)]
    simp [List.append_assoc]

theorem inner_fetch_eq (payload : String → Strategy → PostListing) (sub : String)
    (sts : List Strategy) (m : List (String × Post)) :
    sts.foldl (fun m strat => insertAll m (parse_posts (payload sub strat))) m =
      insertAll m (sts.foldl (fun acc strat => acc ++ parse_posts (payload sub strat)) []) := by
  induction sts generalizing m with
  | nil => simp [insertAll]
  | cons st rest ih =>
    rw [List.foldl_cons, List.foldl_cons, ih]
    rw [foldl_append_acc (fun st => parse_posts (payload sub st)) rest
      (([] : List Post) ++ parse_posts (payload sub st))]
    rw [List.nil_append, insertAll_append]

theorem outer_append_acc (payload : String → Strategy → PostListing)
    (subs : List String) (acc : List Post) :
    subs.foldl
        (fun acc sub =>
          strategyOrder.foldl (fun a st => a ++ parse_posts (payload sub st)) acc)
        acc =
      acc ++ subs.foldl
        (fun acc sub =>
          strategyOrder.foldl (fun a st => a ++ parse_posts (payload sub st)) acc)
        [] := by
  induction subs generalizing acc with
  | nil => simp
  | cons sub rest ih =>
    rw [List.foldl_cons, List.foldl_cons]
    rw [foldl_append_acc (fun st => parse_posts (payload sub st)) strategyOrder acc]
    rw [ih (acc ++ strategyOrder.foldl (fun a st => a ++ parse_posts (payload sub st)) [])]
    rw [ih (strategyOrder.foldl (fun a st => a ++ parse_posts (payload sub st)) [])]
    simp [List.append_assoc]

theorem outer_fetch_eq (payload : String → Strategy → PostListing)
    (subs : List String) (m : List (String × Post)) :
    subs.foldl
        (fun m sub =>
          strategyOrder.foldl
            (fun m strat => insertAll m (parse_posts (payload sub strat))) m)
        m =
      insertAll m
        (subs.foldl
          (fun acc sub =>
            strategyOrder.foldl (fun a st => a ++ parse_posts (payload sub st)) acc)
          []) := by
  induction subs generalizing m with
  | nil => simp [insertAll]
  | cons sub rest ih =>
    rw [List.foldl_cons, List.foldl_cons]
    rw [inner_fetch_eq payload sub strategyOrder m]
    rw [ih]
    rw [outer_append_acc payload rest
      (strategyOrder.foldl (fun a st => a ++ parse_posts (payload sub st)) [])]
    rw [insertAll_append]

theorem fetch_posts_eq_mergedItems (payload : String → Strategy → PostListing)
    (subreddits : List String) :
    fetch_posts payload subreddits =
      dictValues (insertAll [] (mergedItems payload subreddits)) := by
  unfold fetch_posts mergedItems
  exact congrArg dictValues (outer_fetch_eq payload subreddits [])

/-- C4 (amended): the merge key space is GLOBAL, not scoped per source:
`fetch_posts` keeps one shared `all_posts` dict across all subreddits, keyed
by `post['id']` alone, so for every id the merged output carries at most one
record — the last parsed occurrence in fetch order (subreddits outer,
strategies inner), regardless of which source it came from. -/
theorem fetch_posts_global_id_dedup (payload : String → Strategy → PostListing)
    (subreddits : List String) (k : String) :
    (fetch_posts payload subreddits).filter (fun p => p.id = k) =
      match ((mergedItems payload subreddits).filter (fun p => p.id = k)).getLast? with
      | some p => [p]
      | none => [] := by
  rw [fetch_posts_eq_mergedItems]
  rw [insertAll_values_filter (mergedItems payload subreddits) [] k
    (by intro kv h; exact absurd h (List.not_mem_nil kv)) List.nodup_nil]
  cases hlast : ((mergedItems payload subreddits).filter (fun p => p.id = k)).getLast? with
  | some p => simp [hlast]
  | none => simp [hlast, dictValues]

/-- Counterexample to C4 as stated: two different subreddits each return a
post with the SAME id `x` (differing `subreddit` and `title` fields); the
merged result of the multi-source fetch contains only ONE record — the one
from the later-iterated source — not both as distinct entities. -/
theorem cross_source_same_id_collapses :
    (fetch_posts crossSourcePayload ["suba", "subb"]).map
        (fun p => (p.id, p.subreddit, p.title)) =
      [("x", "subb", "from b")] := by decide

/-- C5: strategies are fetched in the declared order hot, rising, top, new
and written into the id-keyed dict in that order, so an id occurring in
several strategy payloads appears exactly once in the merged output,
carrying the field values of its last occurrence in declared order (the
last-declared strategy that contained it). -/
theorem fetch_posts_last_strategy_wins (payload : String → Strategy → PostListing)
    (sub : String) (k : String) (p : Post)
    (hlast : ((mergedItems payload [sub]).filter (fun q => q.id = k)).getLast? = some p) :
    (fetch_posts payload [sub]).filter (fun q => q.id = k) = [p] := by
  rw [fetch_posts_eq_mergedItems]
  rw [insertAll_values_filter (mergedItems payload [sub]) [] k
    (by intro kv h; exact absurd h (List.not_mem_nil kv)) List.nodup_nil]
  rw [hlast]

/-- Witness for C5: id `b` appears in the hot and rising payloads with
different titles; the merged output holds exactly one record for `b`,
bearing the rising (later-declared) title. -/
theorem fetch_posts_last_strategy_wins_witness :
    (fetch_posts twoStrategyPayload ["s"]).filter (fun q => q.id = "b") =
      [{ id := "b", title := "rising version", selftext := "", author := "[deleted]",
         subreddit := "", score := 0, upvote_ratio := 0, num_comments := 0,
         created_utc := 0, url := "https://reddit.com", is_self := true,
         link_flair_text := "" }] :=
  fetch_posts_last_strategy_wins twoStrategyPayload "s" "b" _ (by decide)

end ToeflScouts
